import Mathlib

/-!
Verification of the safety-certified cartpole episode lifecycle
(`custom_envs/safeCartpole.py`).

The development shallowly embeds the parts of the `Balance` task that the
claims concern:

* the pole-angle wrapping `(theta + pi) % (2*pi) - pi` used by
  `Balance.is_unsafe` (Python float `%` with a positive divisor returns a
  value in `[0, divisor)`, modelled by `pyMod`);
* `Balance.set_unsafe_region` and the analytic unsafe classifier;
* the rejection-sampling loop of `Balance.initialize_episode` with its
  retry counter and deterministic fallback;
* the cache-load branch of `Balance.setup_hj_reachability`;
* `Balance.get_observation` and the dense branch of `Balance._get_reward`.

Numeric values are modelled as exact rationals; `np_pi` is the exact value
of the IEEE-754 double `np.pi` that the Python code computes with.  The
reward section uses real arithmetic because it involves `cos` and `exp`.
-/

/-- The exact rational value of the IEEE-754 double `np.pi`
(`3.141592653589793115997963468544185161590576171875`). -/
def np_pi : ℚ := 884279719003555 / 281474976710656

/-- Python's `%` operator on floats with a positive divisor:
`a - b * floor (a / b)`, which lies in `[0, b)` for `b > 0`. -/
def pyMod (a b : ℚ) : ℚ := a - b * (Int.floor (a / b) : ℚ)

/-- The angle wrapping performed by `Balance.is_unsafe` (line 226):
`theta = (qpos[1] + np.pi) % (2*np.pi) - np.pi`. -/
def wrap_angle (theta : ℚ) : ℚ := pyMod (theta + np_pi) (2 * np_pi) - np_pi

/-- A cartpole state `(x, theta, xdot, thetadot)` as assembled by the task:
cart position, pole hinge angle, cart velocity, angular velocity. -/
structure StateQ where
  x : ℚ
  theta : ℚ
  xdot : ℚ
  thetadot : ℚ
deriving DecidableEq

/-- The unsafe-region configuration stored by `Balance.set_unsafe_region`
(lines 202-219). -/
structure UnsafeRegion where
  x_min : ℚ
  x_max : ℚ
  vel_max : ℚ
  theta_min : ℚ
  theta_max : ℚ
  theta_in_range : Bool
  use_unsafe_theta : Bool
deriving DecidableEq

/-- `Balance.set_unsafe_region` (lines 202-219): stores the bounds and sets
`use_unsafe_theta` to `True`, downgrading it to `False` exactly when
`unsafe_theta_min == unsafe_theta_max`. -/
def set_unsafe_region (x0 x1 vm t0 t1 : ℚ) (tin : Bool) : UnsafeRegion :=
  ⟨x0, x1, vm, t0, t1, tin, if t0 = t1 then false else true⟩

/-- Modelled from the spec: `CartPoleDeepreach.is_unsafe` lives in
`custom_envs/utils.py`, which is not part of the provided sources; section 4.3
of the spec defines the analytic classifier as: unsafe iff the position is out
of `[x_min, x_max]`, or `|xdot| > vel_max`, or `|thetadot| > vel_max`, or the
angle condition is enabled and the angle being inside `[theta_min, theta_max]`
matches the `theta_in_range` polarity. -/
def is_unsafe_fast (r : UnsafeRegion) (s : StateQ) : Prop :=
  s.x < r.x_min ∨ r.x_max < s.x ∨ r.vel_max < |s.xdot| ∨ r.vel_max < |s.thetadot| ∨
  (r.use_unsafe_theta = true ∧
    (if r.theta_in_range then r.theta_min ≤ s.theta ∧ s.theta ≤ r.theta_max
     else ¬ (r.theta_min ≤ s.theta ∧ s.theta ≤ r.theta_max)))

instance is_unsafe_fast_dec (r : UnsafeRegion) (s : StateQ) :
    Decidable ( is_unsafe_fast r s) := by
  unfold is_unsafe_fast
  infer_instance

/-- The unsafe region configured in `Balance.setup_hj_reachability`
(lines 247-258): `x_min = -1.5`, `x_max = 1.5`, `vel_max = 100`,
`theta_min = -pi/8`, `theta_max = pi/8`, `theta_in_range = False`. -/
def setup_unsafe_region : UnsafeRegion :=
  set_unsafe_region (-(3/2)) (3/2) 100 (-(np_pi / 8)) (np_pi / 8) false

/-- Geometry name `'pole_1'` written by `get_observation`. -/
def pole1_name : String := "pole_1"

/-- Geometry name `'cart'` written by `get_observation`. -/
def cart_name : String := "cart"

/-- The forced-red color `[1, 0, 0, 1]` (lines 404-405). -/
def red_rgba : List ℚ := [1, 0, 0, 1]

/-- The default color `[0.5, 0.5, 0.5, 1]` (lines 407-408). -/
def default_rgba : List ℚ := [1/2, 1/2, 1/2, 1]

/-- The slice of the MuJoCo physics data that the task reads and writes:
`qpos` (slider and hinge), `qvel`, the pole orientation-matrix entries used by
`bounded_position`, and the per-geometry color table. -/
structure MjState where
  qpos_slider : ℚ
  qpos_hinge : ℚ
  qvel_slider : ℚ
  qvel_hinge : ℚ
  xmat_zz : ℚ
  xmat_xz : ℚ
  geom_rgba : String → List ℚ

/-- `Balance.is_unsafe` (lines 221-230): reads `(x, theta, xdot, thetadot)`
from physics, wraps the hinge angle with `(theta + pi) % (2*pi) - pi`, and
delegates to the analytic classifier. -/
def is_unsafe (r : UnsafeRegion) (p : MjState) : Prop :=
  is_unsafe_fast r ⟨p.qpos_slider, wrap_angle p.qpos_hinge, p.qvel_slider, p.qvel_hinge⟩

instance is_unsafe_dec (r : UnsafeRegion) (p : MjState) : Decidable ( is_unsafe r p) := by
  unfold is_unsafe
  infer_instance

/-- An observation as assembled by `get_observation` (lines 397-409). -/
structure Observation where
  position : List ℚ
  velocity : List ℚ
deriving DecidableEq

/-- `Physics.bounded_position` (lines 162-165): cart position followed by the
pole `zz` and `xz` orientation-matrix entries. -/
def bounded_position (p : MjState) : List ℚ := [p.qpos_slider, p.xmat_zz, p.xmat_xz]

/-- `Physics.velocity()` as consumed at line 401: the `qvel` vector. -/
def velocity_reading (p : MjState) : List ℚ := [p.qvel_slider, p.qvel_hinge]

/-- `Balance.get_observation` (lines 397-409): assembles the observation from
`bounded_position` and `velocity`, then recolors `'pole_1'` and `'cart'` red
when the unsafe classifier fires and back to the default color otherwise.
The returned pair is (observation, physics state after the color writes). -/
def get_observation (r : UnsafeRegion) (p : MjState) : Observation × MjState :=
  if is_unsafe r p then
    (⟨bounded_position p, velocity_reading p⟩,
     ⟨p.qpos_slider, p.qpos_hinge, p.qvel_slider, p.qvel_hinge, p.xmat_zz, p.xmat_xz,
      Function.update (Function.update p.geom_rgba pole1_name red_rgba) cart_name red_rgba⟩)
  else
    (⟨bounded_position p, velocity_reading p⟩,
     ⟨p.qpos_slider, p.qpos_hinge, p.qvel_slider, p.qvel_hinge, p.xmat_zz, p.xmat_xz,
      Function.update (Function.update p.geom_rgba pole1_name default_rgba) cart_name
        default_rgba⟩)

/-- `max_counter = 1000` (line 348). -/
def max_counter : ℕ := 1000

/-- The deterministic fallback start state `np.array([0.0, np.pi, 0.0, 0.0])`
(line 374). -/
def fallback_state : StateQ := ⟨0, np_pi, 0, 0⟩

/-- Outcome of the `initialize_episode` sampling loop, instrumented with the
path taken: `fallback` records whether the exhaustion branch fired,
`reported` whether the `print` in that branch executed, and `drawsUsed` how
many candidate states were drawn and evaluated. -/
structure InitResult where
  state : StateQ
  fallback : Bool
  reported : Bool
  drawsUsed : ℕ
deriving DecidableEq

/-- The `while not found_start` loop of `Balance.initialize_episode`
(lines 348-379), with the candidate stream abstracted as `draws` (covering
both the swing-up and the balance sampling distributions) and the
interpolated terminal value function as `V` (`hjr_state_to_value`).

The source counts rejections in `counter` and takes the fallback branch on
the rejection that makes `counter > max_counter`; here `rem` is the number of
further rejections allowed before that branch, i.e. `rem = max_counter -
counter`, and `i` is the index of the candidate drawn in this iteration. -/
def initLoop (V : StateQ → ℚ) (draws : ℕ → StateQ) : ℕ → ℕ → InitResult
  | 0, i =>
    if 0 ≤ V (draws i) then ⟨draws i, false, false, i + 1⟩
    else ⟨fallback_state, true, true, i + 1⟩
  | rem + 1, i =>
    if 0 ≤ V (draws i) then ⟨draws i, false, false, i + 1⟩
    else initLoop V draws rem (i + 1)

/-- `Balance.initialize_episode` (lines 337-384) restricted to the computation
of the start state: runs the rejection-sampling loop from `counter = 0`. -/
def initialize_episode (V : StateQ → ℚ) (draws : ℕ → StateQ) : InitResult :=
  initLoop V draws max_counter 0

/-- Grid lattice resolution `(51, 51, 51, 51)` (line 276). -/
def hjr_grid_resolution : List ℕ := [51, 51, 51, 51]

/-- Time resolution `101` (line 277). -/
def hjr_time_resolution : ℕ := 101

/-- Error raised by `numpy` when `mean(axis=(1,2,3,4))` is applied to an array
with fewer than five dimensions. -/
def err_axis : String := "numpy.exceptions.AxisError: axis is out of bounds"

/-- Error raised by `numpy` when `[-1]` indexes an empty time axis. -/
def err_index : String := "IndexError: index -1 is out of bounds"

/-- Model of the cache-load branch of `Balance.setup_hj_reachability`
(lines 310-333), tracked at the level of array shapes: `np.load` returns an
array of the given shape, `all_values[-1]` and `diffs = -jnp.diff(...).mean(
axis=(1,2,3,4))` with `diffs[-1]` require at least two snapshots along axis 0
and at least five axes, and no other validation is performed — in particular
the lattice shape `shape.tail` is never compared against the grid resolution.
Returns the shape of the terminal value snapshot. -/
def setup_load_cached (shape : List ℕ) : Except String (List ℕ) :=
  if shape.length < 5 then Except.error err_axis
  else if shape.headI < 2 then Except.error err_index
  else Except.ok shape.tail

/-- A constant value function certifying every state; used as a concrete
oracle for witnesses. -/
def constV1 : StateQ → ℚ := fun _ => 1

/-- A constant value function rejecting every state (a degenerate
always-unsafe region); used to exercise the exhaustion branch. -/
def negV : StateQ → ℚ := fun _ => -1

/-- A constant candidate stream. -/
def constDraw : ℕ → StateQ := fun _ => ⟨0, 0, 0, 0⟩

/-- The physics readings consumed by `Balance._get_reward` (lines 411-428):
cart position, pole hinge angle (whose cosine is `pole_angle_cosine`), cart
velocity, angular velocity, and the applied control signal. -/
structure PhysR where
  cart_pos : ℝ
  pole_angle : ℝ
  cart_vel : ℝ
  pole_vel : ℝ
  control : ℝ

/-- The `'gaussian'` branch of `dm_control.utils.rewards._sigmoids` (external
collaborator): `exp(-0.5 * (x * sqrt(-2 * log value_at_margin))^2)`. -/
noncomputable def sigmoid_gaussian (value_at_margin x : ℝ) : ℝ :=
  Real.exp (-(1 / 2) * (x * Real.sqrt (-2 * Real.log value_at_margin)) ^ 2)

/-- The `'quadratic'` branch of `dm_control.utils.rewards._sigmoids` (external
collaborator): `1 - (x * sqrt(1 - value_at_margin))^2` where that is positive,
`0` elsewhere. -/
noncomputable def sigmoid_quadratic (value_at_margin x : ℝ) : ℝ :=
  if |x * Real.sqrt (1 - value_at_margin)| < 1 then
    1 - (x * Real.sqrt (1 - value_at_margin)) ^ 2
  else 0

/-- `dm_control.utils.rewards.tolerance` (external collaborator) for a scalar
input, with the sigmoid already specialized: `1` inside `[lower, upper]`; `0`
outside when `margin == 0`; otherwise the sigmoid of the distance to the
interval divided by `margin`. -/
noncomputable def tolerance (sig : ℝ → ℝ) (lower upper margin x : ℝ) : ℝ :=
  if margin = 0 then (if lower ≤ x ∧ x ≤ upper then 1 else 0)
  else
    if lower ≤ x ∧ x ≤ upper then 1
    else sig ((if x < lower then lower - x else x - upper) / margin)

/-- The uprightness factor `(pole_angle_cosine + 1) / 2` (line 419); one pole,
so the `.mean()` at line 428 is the factor itself. -/
noncomputable def upright (p : PhysR) : ℝ := (Real.cos p.pole_angle + 1) / 2

/-- The centering factor `(1 + tolerance(cart_position, margin=2)) / 2`
(lines 420-421); the defaults `bounds=(0, 0)`, `sigmoid='gaussian'`,
`value_at_margin=0.1` apply. -/
noncomputable def centered (p : PhysR) : ℝ :=
  (1 + tolerance (sigmoid_gaussian (1 / 10)) 0 0 2 p.cart_pos) / 2

/-- The control-effort factor `(4 + tolerance(control, margin=1,
value_at_margin=0, sigmoid='quadratic')) / 5` (lines 422-425). -/
noncomputable def small_control (p : PhysR) : ℝ :=
  (4 + tolerance (sigmoid_quadratic 0) 0 0 1 p.control) / 5

/-- The angular-velocity factor `(1 + tolerance(angular_vel, margin=5)) / 2`
(lines 426-427); one pole, so the `.min()` is the factor itself. -/
noncomputable def small_velocity (p : PhysR) : ℝ :=
  (1 + tolerance (sigmoid_gaussian (1 / 10)) 0 0 5 p.pole_vel) / 2

/-- The dense branch of `Balance._get_reward` (lines 418-428):
`upright.mean() * small_control * small_velocity * centered`. -/
noncomputable def get_reward_dense (p : PhysR) : ℝ :=
  upright p * small_control p * small_velocity p * centered p

/-- The perfectly upright, centered, zero-velocity, zero-control state. -/
def phys_zero : PhysR := ⟨0, 0, 0, 0, 0⟩

/-- Geometry name untouched by `get_observation`; probe for the frame
condition. -/
def floor_name : String := "floor"

/-- A concrete physics state used to instantiate the frame theorem. -/
def probe_mj : MjState := ⟨0, 0, 0, 0, 1, 0, fun _ => default_rgba⟩

theorem np_pi_pos : (0 : ℚ) < np_pi := by norm_num [np_pi]

theorem pyMod_bounds (a b : ℚ) (hb : 0 < b) : 0 ≤ pyMod a b ∧ pyMod a b < b := by
  have hb0 : b ≠ 0 := ne_of_gt hb
  have hEq : pyMod a b = b * Int.fract (a / b) := by
    unfold pyMod Int.fract
    rw [mul_sub, mul_comm b (a / b), div_mul_cancel₀ a hb0]
  constructor
  · rw [hEq]
    exact mul_nonneg hb.le (Int.fract_nonneg _)
  · rw [hEq]
    calc b * Int.fract (a / b) < b * 1 := (mul_lt_mul_left hb).mpr (Int.fract_lt_one _)
      _ = b := mul_one b

theorem pyMod_add_mul (a b : ℚ) (hb : b ≠ 0) (k : ℤ) :
    pyMod (a + b * k) b = pyMod a b := by
  unfold pyMod
  have h : (a + b * k) / b = a / b + (k : ℚ) := by
    field_simp
    ring
  rw [h, Int.floor_add_int]
  push_cast
  ring

theorem wrap_angle_mem (t : ℚ) : -np_pi ≤ wrap_angle t ∧ wrap_angle t < np_pi := by
  have h := pyMod_bounds (t + np_pi) (2 * np_pi) (by linarith [np_pi_pos])
  unfold wrap_angle
  exact ⟨by linarith [h.1], by linarith [h.2]⟩

theorem wrap_angle_periodic (t : ℚ) (k : ℤ) :
    wrap_angle (t + 2 * np_pi * k) = wrap_angle t := by
  unfold wrap_angle
  have h : t + 2 * np_pi * k + np_pi = t + np_pi + 2 * np_pi * k := by ring
  rw [h, pyMod_add_mul _ _ (by linarith [np_pi_pos]) k]

theorem wrap_angle_np_pi : wrap_angle np_pi = -np_pi := by
  have h2 : (2 : ℚ) * np_pi ≠ 0 := by norm_num [np_pi]
  unfold wrap_angle pyMod
  rw [show (np_pi + np_pi) / (2 * np_pi) = 1 by field_simp; ring, Int.floor_one]
  push_cast
  ring

theorem initLoop_draws_le (V : StateQ → ℚ) (draws : ℕ → StateQ) :
    ∀ rem i, (initLoop V draws rem i).drawsUsed ≤ i + rem + 1 := by
  intro rem
  induction rem with
  | zero =>
    intro i
    simp only [initLoop]
    split <;> simp
  | succ r ih =>
    intro i
    simp only [initLoop]
    split
    · simp
    · calc (initLoop V draws r (i + 1)).drawsUsed ≤ (i + 1) + r + 1 := ih (i + 1)
        _ ≤ i + (r + 1) + 1 := by omega

theorem initLoop_fallback_spec (V : StateQ → ℚ) (draws : ℕ → StateQ) :
    ∀ rem i, (initLoop V draws rem i).fallback = true →
      (initLoop V draws rem i).state = fallback_state ∧
      (initLoop V draws rem i).reported = true := by
  intro rem
  induction rem with
  | zero =>
    intro i
    simp only [initLoop]
    split <;> simp
  | succ r ih =>
    intro i
    simp only [initLoop]
    split
    · simp
    · exact ih (i + 1)

theorem initLoop_accept_spec (V : StateQ → ℚ) (draws : ℕ → StateQ) :
    ∀ rem i, (initLoop V draws rem i).fallback = false →
      0 ≤ V ((initLoop V draws rem i).state) ∧
      ∃ j, (initLoop V draws rem i).state = draws j := by
  intro rem
  induction rem with
  | zero =>
    intro i
    simp only [initLoop]
    split
    · next h => exact fun _ => ⟨h, i, rfl⟩
    · simp
  | succ r ih =>
    intro i
    simp only [initLoop]
    split
    · next h => exact fun _ => ⟨h, i, rfl⟩
    · exact ih (i + 1)

theorem initLoop_first_accept (V : StateQ → ℚ) (draws : ℕ → StateQ) :
    ∀ rem i k, k ≤ rem → (∀ j, j < k → V (draws (i + j)) < 0) →
      0 ≤ V (draws (i + k)) →
      initLoop V draws rem i = ⟨draws (i + k), false, false, i + k + 1⟩ := by
  intro rem
  induction rem with
  | zero =>
    intro i k hk _ hacc
    have hk0 : k = 0 := Nat.le_zero.mp hk
    subst hk0
    simp only [Nat.add_zero] at hacc ⊢
    simp only [initLoop]
    rw [if_pos hacc]
  | succ r ih =>
    intro i k hk hneg hacc
    cases k with
    | zero =>
      simp only [Nat.add_zero] at hacc ⊢
      simp only [initLoop]
      rw [if_pos hacc]
    | succ k0 =>
      have hneg0 : V (draws i) < 0 := by
        have h := hneg 0 (Nat.succ_pos k0)
        simpa using h
      have harith : i + (k0 + 1) = (i + 1) + k0 := by omega
      rw [harith] at hacc ⊢
      simp only [initLoop]
      rw [if_neg (not_le.mpr hneg0)]
      exact ih (i + 1) k0 (Nat.succ_le_succ_iff.mp hk)
        (fun j hj => by
          have h := hneg (j + 1) (Nat.succ_lt_succ hj)
          have harith2 : i + (j + 1) = (i + 1) + j := by omega
          rwa [harith2] at h)
        hacc

theorem initLoop_allneg (V : StateQ → ℚ) (draws : ℕ → StateQ)
    (hneg : ∀ j, V (draws j) < 0) :
    ∀ rem i, initLoop V draws rem i = ⟨fallback_state, true, true, i + rem + 1⟩ := by
  intro rem
  induction rem with
  | zero =>
    intro i
    simp only [initLoop]
    rw [if_neg (not_le.mpr (hneg i))]
  | succ r ih =>
    intro i
    simp only [initLoop]
    rw [if_neg (not_le.mpr (hneg i)), ih (i + 1),
      show (i + 1) + r + 1 = i + (r + 1) + 1 from by omega]

theorem negV_exhausts :
    initialize_episode negV constDraw = ⟨fallback_state, true, true, 1001⟩ := by
  have h := initLoop_allneg negV constDraw (fun j => by norm_num [negV, constDraw])
    max_counter 0
  simpa [initialize_episode, max_counter] using h

theorem sigmoid_gaussian_bounds (vam x : ℝ) :
    0 ≤ sigmoid_gaussian vam x ∧ sigmoid_gaussian vam x ≤ 1 := by
  unfold sigmoid_gaussian
  constructor
  · exact (Real.exp_pos _).le
  · have h : -(1 / 2) * (x * Real.sqrt (-2 * Real.log vam)) ^ 2 ≤ 0 := by
      nlinarith [sq_nonneg (x * Real.sqrt (-2 * Real.log vam))]
    calc Real.exp (-(1 / 2) * (x * Real.sqrt (-2 * Real.log vam)) ^ 2)
        ≤ Real.exp 0 := Real.exp_le_exp.mpr h
      _ = 1 := Real.exp_zero

theorem sigmoid_quadratic_bounds (vam x : ℝ) :
    0 ≤ sigmoid_quadratic vam x ∧ sigmoid_quadratic vam x ≤ 1 := by
  unfold sigmoid_quadratic
  split
  · next h =>
    have h2 := abs_lt.mp h
    constructor
    · nlinarith [h2.1, h2.2]
    · nlinarith [sq_nonneg (x * Real.sqrt (1 - vam))]
  · norm_num

theorem tolerance_bounds (sig : ℝ → ℝ) (hsig : ∀ y, 0 ≤ sig y ∧ sig y ≤ 1)
    (lower upper margin x : ℝ) :
    0 ≤ tolerance sig lower upper margin x ∧ tolerance sig lower upper margin x ≤ 1 := by
  unfold tolerance
  split
  · split <;> norm_num
  · split
    · norm_num
    · exact hsig _

/-- C1: if the sampling loop of `initialize_episode` returns via the accept
path (not the fallback), the returned start state is one of the drawn
candidates and its interpolated terminal value is non-negative; conversely,
the first candidate whose value is non-negative (drawn within the budget) is
accepted and returned. -/
theorem initialize_episode_certified (V : StateQ → ℚ) (draws : ℕ → StateQ) :
    ((initialize_episode V draws).fallback = false →
      0 ≤ V ((initialize_episode V draws).state) ∧
      ∃ j, (initialize_episode V draws).state = draws j)
    ∧ (∀ k, k ≤ max_counter → (∀ j, j < k → V (draws j) < 0) → 0 ≤ V (draws k) →
        initialize_episode V draws = ⟨draws k, false, false, k + 1⟩) := by
  constructor
  · exact initLoop_accept_spec V draws max_counter 0
  · intro k hk hneg hacc
    have h := initLoop_first_accept V draws max_counter 0 k hk
      (fun j hj => by simpa using hneg j hj) (by simpa using hacc)
    simpa [initialize_episode] using h

/-- C1 witness: with a value function that certifies everything, the first
candidate is accepted. -/
theorem initialize_episode_certified_witness :
    initialize_episode constV1 constDraw = ⟨⟨0, 0, 0, 0⟩, false, false, 1⟩ :=
  (initialize_episode_certified constV1 constDraw).2 0 (Nat.zero_le _)
    (fun j hj => absurd hj (Nat.not_lt_zero j)) (by norm_num [constV1])

/-- C2 counterexample: with a degenerate always-negative value function the
loop draws and evaluates 1001 candidate states before taking the fallback
branch, exceeding the claimed bound of 1000 draws. -/
theorem initialize_episode_budget_cex :
    (initialize_episode negV constDraw).drawsUsed = 1001 ∧
    ¬ ((initialize_episode negV constDraw).drawsUsed ≤ 1000) := by
  rw [negV_exhausts]
  norm_num

/-- C2 (amended): the rejection-sampling loop is bounded: at most
`max_counter + 1 = 1001` candidate states (one initial draw plus 1000
retries) are drawn and evaluated before the loop accepts or falls back; the
loop is a total structurally recursive function, so it always terminates. -/
theorem initialize_episode_budget (V : StateQ → ℚ) (draws : ℕ → StateQ) :
    (initialize_episode V draws).drawsUsed ≤ max_counter + 1 := by
  have h := initLoop_draws_le V draws max_counter 0
  simpa [initialize_episode] using h

/-- C3: whenever the retry budget is exhausted, `initialize_episode` returns
exactly the state `(0, np.pi, 0, 0)` — for every value function and every
candidate stream, hence for both the swing-up and the balance mode — and the
event is reported via the print in the exhaustion branch. -/
theorem initialize_episode_fallback_deterministic (V : StateQ → ℚ)
    (draws : ℕ → StateQ) :
    (initialize_episode V draws).fallback = true →
      (initialize_episode V draws).state = fallback_state ∧
      (initialize_episode V draws).reported = true ∧
      fallback_state = ⟨0, np_pi, 0, 0⟩ := by
  intro h
  have hs := initLoop_fallback_spec V draws max_counter 0 h
  exact ⟨hs.1, hs.2, rfl⟩

/-- C3 witness: the always-negative value function exhausts the budget and
lands on the deterministic fallback. -/
theorem initialize_episode_fallback_deterministic_witness :
    (initialize_episode negV constDraw).state = fallback_state ∧
    (initialize_episode negV constDraw).reported = true ∧
    fallback_state = ⟨0, np_pi, 0, 0⟩ :=
  initialize_episode_fallback_deterministic negV constDraw (by rw [negV_exhausts])

/-- C4: `set_unsafe_region` disables the angle condition exactly when
`theta_min = theta_max` (`use_unsafe_theta` is `false` iff the bounds
coincide), and with the condition disabled the angle plays no role in the
analytic unsafe classifier. -/
theorem set_unsafe_region_theta_disabled (x0 x1 vm t0 t1 : ℚ) (tin : Bool) :
    ((set_unsafe_region x0 x1 vm t0 t1 tin).use_unsafe_theta = false ↔ t0 = t1)
    ∧ (t0 = t1 → ∀ s : StateQ, ∀ t2 : ℚ,
        ( is_unsafe_fast (set_unsafe_region x0 x1 vm t0 t1 tin)
            ⟨s.x, t2, s.xdot, s.thetadot⟩ ↔
          is_unsafe_fast (set_unsafe_region x0 x1 vm t0 t1 tin) s)) := by
  constructor
  · unfold set_unsafe_region
    by_cases h : t0 = t1 <;> simp [h]
  · intro h s t2
    unfold is_unsafe_fast set_unsafe_region
    simp [h]

/-- C4 witness: with coinciding angle bounds the flag is off and a state stays
classified identically under an arbitrary angle change. -/
theorem set_unsafe_region_theta_disabled_witness :
    ((set_unsafe_region 0 1 2 5 5 true).use_unsafe_theta = false)
    ∧ ( is_unsafe_fast (set_unsafe_region 0 1 2 5 5 true) ⟨7, 100, 0, 0⟩ ↔
        is_unsafe_fast (set_unsafe_region 0 1 2 5 5 true) ⟨7, 3, 0, 0⟩) :=
  ⟨(set_unsafe_region_theta_disabled 0 1 2 5 5 true).1.mpr rfl,
   (set_unsafe_region_theta_disabled 0 1 2 5 5 true).2 rfl ⟨7, 3, 0, 0⟩ 100⟩

/-- C5 counterexample: the wrapped angle is not confined to the half-open
interval `(-pi, pi]`: the raw hinge angle `np.pi` wraps to `-np.pi`, which
violates `-pi < theta`. -/
theorem wrap_angle_not_in_claimed_interval :
    wrap_angle np_pi = -np_pi ∧ ¬ (-np_pi < wrap_angle np_pi) :=
  ⟨wrap_angle_np_pi, by rw [wrap_angle_np_pi]; exact lt_irrefl _⟩

/-- C5 (amended): `is_unsafe` evaluates the region predicate on the wrapped
angle; the wrap lands in the half-open interval `[-pi, pi)` (not `(-pi, pi]`),
and raw angles differing by a multiple of `2*pi` wrap to the same value. -/
theorem is_unsafe_wraps_angle (r : UnsafeRegion) (p : MjState) (t : ℚ) (k : ℤ) :
    ( is_unsafe r p ↔
      is_unsafe_fast r
        ⟨p.qpos_slider, wrap_angle p.qpos_hinge, p.qvel_slider, p.qvel_hinge⟩)
    ∧ (-np_pi ≤ wrap_angle t ∧ wrap_angle t < np_pi)
    ∧ wrap_angle (t + 2 * np_pi * k) = wrap_angle t :=
  ⟨Iff.rfl, wrap_angle_mem t, wrap_angle_periodic t k⟩

/-- C6: under the configured unsafe region, the upright centered state
`(0, 0, 0, 0)` is classified safe and the hanging state `(0, pi, 0, 0)` is
classified unsafe by the analytic classifier. -/
theorem setup_region_scenario :
    ¬ is_unsafe_fast setup_unsafe_region ⟨0, 0, 0, 0⟩ ∧
    is_unsafe_fast setup_unsafe_region ⟨0, np_pi, 0, 0⟩ := by
  unfold is_unsafe_fast setup_unsafe_region set_unsafe_region
  norm_num [np_pi]

/-- C7 counterexample: a cached array whose lattice shape disagrees with the
grid resolution is accepted by the construction-time load path without any
failure, refuting the claimed fail-fast behavior. -/
theorem setup_load_cached_mismatch_accepted :
    setup_load_cached ([101, 26, 26, 26, 26]) = Except.ok ([26, 26, 26, 26])
    ∧ ([26, 26, 26, 26] : List ℕ) ≠ hjr_grid_resolution :=
  ⟨rfl, by decide⟩

/-- C7 (amended): the cache-load branch of `setup_hj_reachability` performs
no grid-shape validation at construction: every loaded array with at least
five axes and at least two time snapshots is accepted, whether or not its
lattice shape matches the grid resolution. -/
theorem setup_load_cached_no_shape_check (shape : List ℕ)
    (h5 : 5 ≤ shape.length) (h2 : 2 ≤ shape.headI) :
    setup_load_cached shape = Except.ok shape.tail := by
  unfold setup_load_cached
  rw [if_neg (by omega), if_neg (by omega)]

/-- C7 witness: a concrete mismatched five-axis array constructs fine. -/
theorem setup_load_cached_no_shape_check_witness :
    setup_load_cached ([101, 40, 40, 40, 40]) = Except.ok ([40, 40, 40, 40]) :=
  setup_load_cached_no_shape_check ([101, 40, 40, 40, 40]) (by decide) (by decide)

/-- C8: with dense shaping, the perfectly upright, centered, zero-control,
zero-velocity state attains the maximum value `1` in each of the four shaping
factors, and the reward — their product — is exactly `1`. -/
theorem get_reward_dense_perfect_state :
    upright phys_zero = 1 ∧ centered phys_zero = 1 ∧ small_control phys_zero = 1 ∧
    small_velocity phys_zero = 1 ∧ get_reward_dense phys_zero = 1 := by
  have htol1 : ∀ sig : ℝ → ℝ, ∀ margin : ℝ, margin ≠ 0 →
      tolerance sig 0 0 margin 0 = 1 := by
    intro sig margin hm
    unfold tolerance
    rw [if_neg hm, if_pos ⟨le_refl (0 : ℝ), le_refl (0 : ℝ)⟩]
  have hu : upright phys_zero = 1 := by
    norm_num [upright, phys_zero, Real.cos_zero]
  have hc : centered phys_zero = 1 := by
    have h := htol1 (sigmoid_gaussian (1 / 10)) 2 (by norm_num)
    norm_num [centered, phys_zero, h]
  have hsc : small_control phys_zero = 1 := by
    have h := htol1 (sigmoid_quadratic 0) 1 (by norm_num)
    norm_num [small_control, phys_zero, h]
  have hsv : small_velocity phys_zero = 1 := by
    have h := htol1 (sigmoid_gaussian (1 / 10)) 5 (by norm_num)
    norm_num [small_velocity, phys_zero, h]
  refine ⟨hu, hc, hsc, hsv, ?_⟩
  unfold get_reward_dense
  rw [hu, hc, hsc, hsv]
  norm_num

/-- C9: `get_observation` is a pure annotation with respect to the dynamics:
it leaves `qpos` and `qvel` unchanged, writes only the `geom_rgba` entries of
`'pole_1'` and `'cart'` — red exactly when the unsafe classifier fires and the
default color otherwise — and assembles the observation from the physics
readings. -/
theorem get_observation_frame (r : UnsafeRegion) (p : MjState) :
    (get_observation r p).2.qpos_slider = p.qpos_slider ∧
    (get_observation r p).2.qpos_hinge = p.qpos_hinge ∧
    (get_observation r p).2.qvel_slider = p.qvel_slider ∧
    (get_observation r p).2.qvel_hinge = p.qvel_hinge ∧
    (get_observation r p).2.geom_rgba pole1_name =
      (if is_unsafe r p then red_rgba else default_rgba) ∧
    (get_observation r p).2.geom_rgba cart_name =
      (if is_unsafe r p then red_rgba else default_rgba) ∧
    (∀ name : String, name ≠ pole1_name → name ≠ cart_name →
      (get_observation r p).2.geom_rgba name = p.geom_rgba name) ∧
    (get_observation r p).1 = ⟨bounded_position p, velocity_reading p⟩ := by
  have hpc : pole1_name ≠ cart_name := by decide
  unfold get_observation
  by_cases h : is_unsafe r p
  · simp only [if_pos h]
    refine ⟨trivial, trivial, trivial, trivial, ?_, ?_, ?_, trivial⟩
    · rw [Function.update_noteq hpc, Function.update_same]
    · rw [Function.update_same]
    · intro n h1 h2
      rw [Function.update_noteq h2, Function.update_noteq h1]
  · simp only [if_neg h]
    refine ⟨trivial, trivial, trivial, trivial, ?_, ?_, ?_, trivial⟩
    · rw [Function.update_noteq hpc, Function.update_same]
    · rw [Function.update_same]
    · intro n h1 h2
      rw [Function.update_noteq h2, Function.update_noteq h1]

/-- C9 witness: on a concrete state, the color of an unrelated geometry and
the `qpos` entries survive `get_observation` unchanged. -/
theorem get_observation_frame_witness :
    (get_observation setup_unsafe_region probe_mj).2.geom_rgba floor_name =
      probe_mj.geom_rgba floor_name ∧
    (get_observation setup_unsafe_region probe_mj).2.qpos_slider =
      probe_mj.qpos_slider :=
  ⟨(get_observation_frame setup_unsafe_region probe_mj).2.2.2.2.2.2.1 floor_name
      (by decide) (by decide),
   (get_observation_frame setup_unsafe_region probe_mj).1⟩

/-- C10: for every physics state the dense reward lies in `[0, 1]`: the
uprightness factor lies in `[0, 1]`, the centering factor in `[1/2, 1]`, the
control-effort factor in `[4/5, 1]`, the angular-velocity factor in
`[1/2, 1]`, and the product of the four is non-negative and at most `1`. -/
theorem get_reward_dense_bounds (p : PhysR) :
    (0 ≤ upright p ∧ upright p ≤ 1) ∧
    (1 / 2 ≤ centered p ∧ centered p ≤ 1) ∧
    (4 / 5 ≤ small_control p ∧ small_control p ≤ 1) ∧
    (1 / 2 ≤ small_velocity p ∧ small_velocity p ≤ 1) ∧
    (0 ≤ get_reward_dense p ∧ get_reward_dense p ≤ 1) := by
  have hg := tolerance_bounds (sigmoid_gaussian (1 / 10))
    (sigmoid_gaussian_bounds (1 / 10)) 0 0 2 p.cart_pos
  have hg5 := tolerance_bounds (sigmoid_gaussian (1 / 10))
    (sigmoid_gaussian_bounds (1 / 10)) 0 0 5 p.pole_vel
  have hq := tolerance_bounds (sigmoid_quadratic 0)
    (sigmoid_quadratic_bounds 0) 0 0 1 p.control
  have hcos1 := Real.cos_le_one p.pole_angle
  have hcos2 := Real.neg_one_le_cos p.pole_angle
  have hu1 : 0 ≤ upright p := by unfold upright; linarith
  have hu2 : upright p ≤ 1 := by unfold upright; linarith
  have hc1 : 1 / 2 ≤ centered p := by unfold centered; linarith [hg.1]
  have hc2 : centered p ≤ 1 := by unfold centered; linarith [hg.2]
  have hs1 : 4 / 5 ≤ small_control p := by unfold small_control; linarith [hq.1]
  have hs2 : small_control p ≤ 1 := by unfold small_control; linarith [hq.2]
  have hv1 : 1 / 2 ≤ small_velocity p := by unfold small_velocity; linarith [hg5.1]
  have hv2 : small_velocity p ≤ 1 := by unfold small_velocity; linarith [hg5.2]
  refine ⟨⟨hu1, hu2⟩, ⟨hc1, hc2⟩, ⟨hs1, hs2⟩, ⟨hv1, hv2⟩, ?_, ?_⟩
  · unfold get_reward_dense
    exact mul_nonneg (mul_nonneg (mul_nonneg hu1 (by linarith)) (by linarith))
      (by linarith)
  · unfold get_reward_dense
    have h1 : upright p * small_control p ≤ 1 := mul_le_one₀ hu2 (by linarith) hs2
    have h2 : upright p * small_control p * small_velocity p ≤ 1 :=
      mul_le_one₀ h1 (by linarith) hv2
    exact mul_le_one₀ h2 (by linarith) hc2
